import Mathlib

/-!
Verification development for the vrose upload/import pipeline frontend.

The TypeScript sources are shallowly embedded: a JS string is modelled as its
character sequence (`List Char`), a JS `Set` by a `Finset` (membership
semantics; iteration order is not modelled), JS numbers holding byte counts
and step counters by `Nat`, and nullable/optional values by `Option`.
React state updates are modelled as explicit state-passing functions, and
side effects (callbacks invoked, HTTP requests issued) as explicit effect
values returned by the embedded handler.
-/

namespace Vrose

/-! ### JS string primitives -/

/-- A JS string, modelled as its character sequence. -/
abbrev JSString := List Char

/-- JS `String.prototype.toLowerCase` (basic-latin case mapping). -/
def toLowerCase (s : JSString) : JSString := s.map Char.toLower

/-- JS `String.prototype.lastIndexOf(c)`: the index of the last occurrence of
the character `c`, or `-1` when `c` does not occur. -/
def lastIndexOfChar (s : JSString) (c : Char) : Int :=
  (s.length : Int) - 1 - (s.reverse.indexOf c : Int)

/-- JS `String.prototype.substring(start)` with a single argument: a negative
start index is clamped to `0`, a start index past the end yields `""`. -/
def substringFrom (s : JSString) (i : Int) : JSString := s.drop i.toNat

/-! ### src/frontend/src/utils/fileValidation.ts -/

/-- The relevant observable fields of a browser `File` object: `name`,
`size` (bytes) and `type` (MIME type). -/
structure JSFile where
  name : JSString
  size : Nat
  type : String
deriving DecidableEq

/-- The error messages `validateFile` can push, as tagged values (the literal
string formatting, including the human-readable size rendering, is
presentation only and is not modelled). -/
inductive ValidationErrorMsg where
  | noFileSelected
  | invalidFileType
  | sizeExceeded (size : Nat)
  | invalidContentType (mime : String)
deriving DecidableEq

/-- `FileValidationResult` from fileValidation.ts. -/
structure FileValidationResult where
  isValid : Bool
  errors : List ValidationErrorMsg
  file : Option JSFile
deriving DecidableEq

/-- `ALLOWED_EXTENSIONS = ['.csv', '.xlsx', '.xls']`. -/
def ALLOWED_EXTENSIONS : List JSString :=
  [".csv".toList, ".xlsx".toList, ".xls".toList]

/-- `ALLOWED_MIME_TYPES` from fileValidation.ts. -/
def ALLOWED_MIME_TYPES : List String :=
  ["text/csv", "application/csv",
   "application/vnd.openxmlformats-officedocument.spreadsheetml.sheet",
   "application/vnd.ms-excel"]

/-- `MAX_FILE_SIZE = 50 * 1024 * 1024`. -/
def MAX_FILE_SIZE : Nat := 50 * 1024 * 1024

/-- `validateFileExtension(filename)`: lowercases the filename, takes the
substring from `filename.lastIndexOf('.')` (the whole lowercased name when
there is no dot, since `substring` clamps `-1` to `0`) and tests membership
in `ALLOWED_EXTENSIONS`. -/
def validateFileExtension (filename : JSString) : Bool :=
  ALLOWED_EXTENSIONS.contains
    (substringFrom (toLowerCase filename) (lastIndexOfChar filename '.'))

/-- `validateFileSize(file)`: `file.size <= MAX_FILE_SIZE`. -/
def validateFileSize (file : JSFile) : Bool := file.size ≤ MAX_FILE_SIZE

/-- `validateFileMimeType(file)`: membership in `ALLOWED_MIME_TYPES`. -/
def validateFileMimeType (file : JSFile) : Bool :=
  ALLOWED_MIME_TYPES.contains file.type

/-- `validateFile(file)`: accumulates one error per failed check and returns
`isValid` exactly when no error was accumulated; the `!file` guard is the
`none` case. -/
def validateFile : Option JSFile → FileValidationResult
  | none => { isValid := false, errors := [.noFileSelected], file := none }
  | some file =>
    let errors :=
      (if validateFileExtension file.name then [] else [ValidationErrorMsg.invalidFileType])
      ++ (if validateFileSize file then [] else [ValidationErrorMsg.sizeExceeded file.size])
      ++ (if validateFileMimeType file then [] else [ValidationErrorMsg.invalidContentType file.type])
    { isValid := errors.isEmpty, errors := errors, file := some file }

/-- `validateFiles(files)`: validates each file, collecting the results. -/
def validateFiles (files : List JSFile) : List FileValidationResult :=
  files.map (fun f => validateFile (some f))

/-- Helper: `Char.toLower` maps only basic-latin capitals, so the only
character lowercasing to a dot is the dot itself. -/
theorem charToLower_eq_dot {c : Char} (h : c.toLower = '.') : c = '.' := by
  by_cases hc : c.toNat ≥ 65 ∧ c.toNat ≤ 90
  · exfalso
    have h' : Char.ofNat (c.toNat + 32) = '.' := by
      simpa [Char.toLower, hc] using h
    obtain ⟨h1, h2⟩ := hc
    generalize hn : c.toNat = n at h1 h2 h'
    interval_cases n <;> exact absurd h' (by decide)
  · simpa [Char.toLower, hc] using h

/-- Helper: lowercasing introduces no dot. -/
theorem dot_not_mem_toLowerCase {s : JSString} (h : '.' ∉ s) :
    '.' ∉ toLowerCase s := by
  intro hmem
  rcases List.mem_map.mp hmem with ⟨c, hc, hlc⟩
  exact h (charToLower_eq_dot hlc ▸ hc)

/-- Helper: on a string with no dot, the extension computation degrades to the
whole lowercased string. -/
theorem extensionOf_no_dot {s : JSString} (h : '.' ∉ s) :
    substringFrom (toLowerCase s) (lastIndexOfChar s '.') = toLowerCase s := by
  have hidx : s.reverse.indexOf '.' = s.reverse.length :=
    List.indexOf_eq_length.mpr (by simpa using h)
  have hneg : lastIndexOfChar s '.' = -1 := by
    simp [lastIndexOfChar, hidx]
  simp [substringFrom, hneg]

/-- Claim C1: for every input file, validateFile returns isValid = true
exactly when the extension check, the size check (at most 52428800 bytes) and
the MIME-type check all pass; otherwise isValid = false, with exactly one
error message accumulated per failed check, returned in the result rather
than raised. -/
theorem validateFile_isValid_iff_checks (f : JSFile) :
    ((validateFile (some f)).isValid
      = (validateFileExtension f.name && validateFileSize f && validateFileMimeType f))
    ∧ (validateFileSize f = decide (f.size ≤ 52428800))
    ∧ ((validateFile (some f)).errors.length
        = (if validateFileExtension f.name then 0 else 1)
          + (if validateFileSize f then 0 else 1)
          + (if validateFileMimeType f then 0 else 1))
    ∧ ((validateFile (some f)).errors = [] ↔ (validateFile (some f)).isValid = true) := by
  refine ⟨?_, ?_, ?_, ?_⟩
  · cases hx : validateFileExtension f.name <;>
      cases hs : validateFileSize f <;>
        cases hm : validateFileMimeType f <;>
          simp [validateFile, hx, hs, hm]
  · simp [validateFileSize, MAX_FILE_SIZE]
  · cases hx : validateFileExtension f.name <;>
      cases hs : validateFileSize f <;>
        cases hm : validateFileMimeType f <;>
          simp [validateFile, hx, hs, hm]
  · simp [validateFile, List.isEmpty_iff]

/-- Claim C10: validateFileExtension is total, and a filename containing no
dot is always rejected: the lastIndexOf branch yields the whole lowercased
filename, which can never equal a dot-prefixed allowed extension, so
validateFile reports the invalid-file-type error instead of accepting the
file or faulting. -/
theorem validateFileExtension_no_dot_rejected (f : JSFile) (h : '.' ∉ f.name) :
    validateFileExtension f.name = false
    ∧ (validateFile (some f)).isValid = false
    ∧ ValidationErrorMsg.invalidFileType ∈ (validateFile (some f)).errors := by
  have hnodot : '.' ∉ toLowerCase f.name := dot_not_mem_toLowerCase h
  have hcsv : toLowerCase f.name ≠ ['.', 'c', 's', 'v'] := by
    intro he; exact hnodot (by rw [he]; decide)
  have hxlsx : toLowerCase f.name ≠ ['.', 'x', 'l', 's', 'x'] := by
    intro he; exact hnodot (by rw [he]; decide)
  have hxls : toLowerCase f.name ≠ ['.', 'x', 'l', 's'] := by
    intro he; exact hnodot (by rw [he]; decide)
  have hext : validateFileExtension f.name = false := by
    simp [validateFileExtension, extensionOf_no_dot h, ALLOWED_EXTENSIONS,
      hcsv, hxlsx, hxls]
  refine ⟨hext, ?_, ?_⟩
  · simp [validateFile, hext]
  · simp [validateFile, hext]

/-- Witness for C10 at a concrete extension-less file. -/
theorem validateFileExtension_no_dot_rejected_witness :
    validateFileExtension ("README".toList) = false
    ∧ (validateFile (some ⟨"README".toList, 10, "text/csv"⟩)).isValid = false
    ∧ ValidationErrorMsg.invalidFileType
        ∈ (validateFile (some ⟨"README".toList, 10, "text/csv"⟩)).errors :=
  validateFileExtension_no_dot_rejected ⟨"README".toList, 10, "text/csv"⟩ (by decide)

/-! ### src/unnamed/part_009 (FilePreview component) -/

/-- The preview payload of a staged upload (rendering-only fields such as the
sampled rows are not modelled). -/
structure FilePreviewData where
  columns : List String
  total_columns : Nat
deriving DecidableEq

/-- The initial selectedColumns state:
`new Set(upload.preview_data?.columns || [])`. -/
def initialSelection (preview : Option FilePreviewData) : Finset String :=
  match preview with
  | some p => p.columns.toFinset
  | none => ∅

/-- `toggleColumn(column)`: delete the column when present, add it when
absent. -/
def toggleColumn (selected : Finset String) (column : String) : Finset String :=
  if column ∈ selected then selected.erase column else insert column selected

/-- `selectAllColumns`: reset to the full preview column set. -/
def selectAllColumns (preview : Option FilePreviewData) : Finset String :=
  initialSelection preview

/-- `deselectAllColumns`: reset to the empty set. -/
def deselectAllColumns : Finset String := ∅

/-- What `handleConfirm` observably does before any response arrives: either
it reports a validation error through onError and returns without issuing the
select-columns request, or it issues the request with the selected columns. -/
inductive ConfirmAction where
  | validationErrorReported (message : String)
  | selectColumnsRequested (selectedColumns : Finset String)
deriving DecidableEq

/-- `handleConfirm`: guards `selectedColumns.size === 0` by reporting an
error and returning early; otherwise posts the select-columns request. -/
def handleConfirm (selectedColumns : Finset String) : ConfirmAction :=
  if selectedColumns.card = 0 then
    .validationErrorReported "Please select at least one column to import."
  else
    .selectColumnsRequested selectedColumns

/-- Claim C2: a confirm attempt with an empty selection reports a validation
error through the error callback and issues no select-columns request, so
no import is started; a request is issued exactly for a non-empty selection,
and it carries that selection. -/
theorem handleConfirm_empty_selection_guard (s : Finset String) :
    (s = ∅ → handleConfirm s
      = .validationErrorReported "Please select at least one column to import.")
    ∧ (∀ c, handleConfirm s = .selectColumnsRequested c → s ≠ ∅ ∧ c = s)
    ∧ (s ≠ ∅ → handleConfirm s = .selectColumnsRequested s) := by
  by_cases hs : s.card = 0
  · have hempty : s = ∅ := Finset.card_eq_zero.mp hs
    refine ⟨fun _ => by simp [handleConfirm, hs], fun c hc => ?_, fun hne => ?_⟩
    · exact absurd hc (by simp [handleConfirm, hs])
    · exact absurd hempty hne
  · have hne : s ≠ ∅ := fun he => hs (by simp [he])
    refine ⟨fun he => absurd he hne, fun c hc => ?_, fun _ => by simp [handleConfirm, hs]⟩
    have : handleConfirm s = .selectColumnsRequested s := by simp [handleConfirm, hs]
    rw [this] at hc
    exact ⟨hne, (ConfirmAction.selectColumnsRequested.injEq .. ▸ hc).symm⟩

/-- Witness for C2 at the empty and at a one-column selection. -/
theorem handleConfirm_empty_selection_guard_witness :
    handleConfirm (∅ : Finset String)
      = .validationErrorReported "Please select at least one column to import."
    ∧ handleConfirm ({"col_a"} : Finset String)
      = .selectColumnsRequested {"col_a"} :=
  ⟨(handleConfirm_empty_selection_guard ∅).1 rfl,
   (handleConfirm_empty_selection_guard {"col_a"}).2.2 (by decide)⟩

/-- Claim C9: the selection starts as exactly the full preview column list,
and toggleColumn removes a present column and adds an absent one, hence
toggling the same column twice restores the selection. -/
theorem toggleColumn_involution (p : FilePreviewData) (s : Finset String)
    (c x : String) :
    (initialSelection (some p) = p.columns.toFinset)
    ∧ (x ∈ initialSelection (some p) ↔ x ∈ p.columns)
    ∧ (c ∈ s → toggleColumn s c = s.erase c)
    ∧ (c ∉ s → toggleColumn s c = insert c s)
    ∧ toggleColumn (toggleColumn s c) c = s := by
  refine ⟨rfl, List.mem_toFinset, fun hc => by simp [toggleColumn, hc],
    fun hc => by simp [toggleColumn, hc], ?_⟩
  by_cases hc : c ∈ s
  · have h1 : toggleColumn s c = s.erase c := by simp [toggleColumn, hc]
    have h2 : c ∉ s.erase c := Finset.not_mem_erase c s
    rw [h1]
    simp [toggleColumn, h2, Finset.insert_erase hc]
  · have h1 : toggleColumn s c = insert c s := by simp [toggleColumn, hc]
    have h2 : c ∈ insert c s := Finset.mem_insert_self c s
    rw [h1]
    simp [toggleColumn, h2, Finset.erase_insert hc]

/-- Witness for C9 at a concrete preview and selection. -/
theorem toggleColumn_involution_witness :
    (initialSelection (some ⟨["a", "b"], 2⟩) = (["a", "b"] : List String).toFinset)
    ∧ ("b" ∈ initialSelection (some ⟨["a", "b"], 2⟩)
        ↔ "b" ∈ (["a", "b"] : List String))
    ∧ ("a" ∈ ({"a"} : Finset String)
        → toggleColumn {"a"} "a" = ({"a"} : Finset String).erase "a")
    ∧ ("a" ∉ ({"a"} : Finset String)
        → toggleColumn {"a"} "a" = insert "a" {"a"})
    ∧ toggleColumn (toggleColumn {"a"} "a") "a" = {"a"} :=
  toggleColumn_involution ⟨["a", "b"], 2⟩ {"a"} "a" "b"

/-! ### src/unnamed/part_019 (GlobalImportProgress component) -/

/-- The module-level mutable state of GlobalImportProgress: the activeImports
set of task ids, initially empty. -/
def activeImportsInit : Finset String := ∅

/-- `addGlobalImport(taskId)`: whether routed through the mounted manager or
applied directly, the effect on the module-level set is insertion. -/
def addGlobalImport (activeImports : Finset String) (taskId : String) :
    Finset String :=
  insert taskId activeImports

/-- `removeGlobalImport(taskId)` and `handleImportComplete`: deletion. -/
def removeGlobalImport (activeImports : Finset String) (taskId : String) :
    Finset String :=
  activeImports.erase taskId

/-- The read the rendering poll performs every second:
`Array.from(activeImports)` over the module-level set. -/
def getActiveImports (activeImports : Finset String) : Finset String :=
  activeImports

/-- Counterexample to claim C7 as stated: the module-level activeImports set
is consulted by the rendering poll, so adding a global import changes what
the poll reads. -/
theorem activeImports_global_state_observed :
    getActiveImports (addGlobalImport activeImportsInit "task-1")
      ≠ getActiveImports activeImportsInit := by decide

/-- Claim C7 amended: a module-level mutable set of active import task ids
does exist; addGlobalImport inserts into it, removeGlobalImport deletes from
it, other ids are untouched, and the global rendering poll reads exactly this
set. -/
theorem activeImports_module_set_spec (s : Finset String) (t x : String) :
    t ∈ getActiveImports (addGlobalImport s t)
    ∧ t ∉ getActiveImports (removeGlobalImport s t)
    ∧ (x ≠ t → (x ∈ getActiveImports (addGlobalImport s t) ↔ x ∈ s))
    ∧ (x ≠ t → (x ∈ getActiveImports (removeGlobalImport s t) ↔ x ∈ s))
    ∧ getActiveImports s = s := by
  refine ⟨?_, ?_, fun hx => ?_, fun hx => ?_, rfl⟩
  · simp [getActiveImports, addGlobalImport]
  · simp [getActiveImports, removeGlobalImport]
  · simp [getActiveImports, addGlobalImport, hx]
  · simp [getActiveImports, removeGlobalImport, hx]

/-! ### src/frontend/src/components/ImportProgressWidget.tsx -/

/-- The progress payload the import-progress endpoint returns. -/
structure ImportProgress where
  task_id : String
  status : String
  current : Nat
  total : Nat
  percentage : Nat
  message : String
  table_name : String
  error_message : Option String
deriving DecidableEq

/-- What one `fetchProgress` call signals: `true` keeps the 2-second polling
interval alive, `false` stops it. A missing task id and a failed request both
stop polling; a successful response stops polling exactly on the `completed`
and `failed` statuses and continues otherwise. -/
def fetchProgressContinue (taskId : Option String)
    (response : Except String ImportProgress) : Bool :=
  match taskId with
  | none => false
  | some _ =>
    match response with
    | .error _ => false
    | .ok p =>
      if p.status = "completed" then false
      else if p.status = "failed" then false
      else true

/-- Counterexample to claim C3 as stated: a response whose status is
`cancelled` keeps the widget polling, although the claim counts `cancelled`
among the terminal statuses that must stop polling. -/
theorem fetchProgressContinue_cancelled_continues :
    (ImportProgress.status ⟨"t1", "cancelled", 3, 10, 30, "m", "tbl", none⟩
      = "cancelled")
    ∧ fetchProgressContinue (some "t1")
        (.ok ⟨"t1", "cancelled", 3, 10, 30, "m", "tbl", none⟩) = true := by
  exact ⟨rfl, rfl⟩

/-- Claim C3 amended: on a successful response, fetchProgress signals
continue-polling exactly when the status is neither `completed` nor `failed`
(`cancelled` is not recognized as terminal by this widget); a missing task id
or a request error also stops polling. -/
theorem fetchProgressContinue_iff_nonterminal (tid : String) (p : ImportProgress) :
    (fetchProgressContinue (some tid) (.ok p) = true
      ↔ (p.status ≠ "completed" ∧ p.status ≠ "failed"))
    ∧ (∀ r, fetchProgressContinue none r = false)
    ∧ (∀ e, fetchProgressContinue (some tid) (.error e) = false) := by
  refine ⟨?_, fun r => rfl, fun e => rfl⟩
  by_cases h1 : p.status = "completed" <;> by_cases h2 : p.status = "failed" <;>
    simp [fetchProgressContinue, h1, h2]

/-! ### TableActions component (second document in src/frontend/src/components/Login.tsx) -/

/-- The validation summary shape consumed by the frontend: the aggregate the
spec calls `summary` and TableActions reads `can_generate_insights` from. -/
structure ValidationSummaryData where
  all_found : Bool
  found_count : Nat
  total_count : Nat
  can_generate_insights : Bool
  missing_headers : List String
deriving DecidableEq

/-- `canGenerateInsights = validationData?.can_generate_insights || false`:
absent validation data coerces to false. -/
def canGenerateInsights (validationData : Option ValidationSummaryData) : Bool :=
  match validationData with
  | some v => v.can_generate_insights
  | none => false

/-- The observable outcome of clicking the generate-insights button. -/
inductive InsightsAction where
  | generateInsightsInvoked (datasetId : String)
  | noAction
deriving DecidableEq

/-- `handleGenerateInsights`: invokes onGenerateInsights with the dataset id
exactly when canGenerateInsights holds, and does nothing otherwise. -/
def handleGenerateInsights (validationData : Option ValidationSummaryData)
    (datasetId : String) : InsightsAction :=
  if canGenerateInsights validationData then .generateInsightsInvoked datasetId
  else .noAction

/-- Claim C4: insight generation is never triggered while
can_generate_insights is false, and this flag is the sole admission check in
the handler: the action fires if and only if the flag is true. -/
theorem handleGenerateInsights_sole_gate (v : Option ValidationSummaryData)
    (d : String) :
    (handleGenerateInsights v d = .generateInsightsInvoked d
      ↔ canGenerateInsights v = true)
    ∧ (canGenerateInsights v = true
      ↔ ∃ s, v = some s ∧ s.can_generate_insights = true)
    ∧ (canGenerateInsights v = false → handleGenerateInsights v d = .noAction) := by
  refine ⟨?_, ?_, fun hf => by simp [handleGenerateInsights, hf]⟩
  · by_cases hv : canGenerateInsights v <;> simp [handleGenerateInsights, hv]
  · cases v with
    | none => simp [canGenerateInsights]
    | some s => simp [canGenerateInsights]

/-! ### src/unnamed/part_015 (HeaderValidationStatus component) -/

/-- The label table of `getHeaderTypeLabel`: the canonical header types the
frontend recognizes, with their display labels. -/
def headerTypeLabels : List (String × String) :=
  [("datetime", "Date/Time"), ("product_id", "Product ID"),
   ("quantity", "Quantity"), ("revenue", "Revenue")]

/-- `getHeaderTypeLabel(type)`: `labels[type] || type` — an unrecognized type
falls through to itself. -/
def getHeaderTypeLabel (type : String) : String :=
  match headerTypeLabels.lookup type with
  | some label => label
  | none => type

/-- The canonical header types, as keyed by the label table. -/
def canonicalHeaderTypes : List String := headerTypeLabels.map Prod.fst

/-- Modelled from the spec: the Header Validation Service summary (backend
code, not under src/) over the canonical header types, given which types the
matcher found: all_found, found_count, total_count (the fixed cardinality of
header types), can_generate_insights = all_found, missing_headers = the list
of not-found types. The type list itself is taken from the frontend label
table above, which the HeaderValidationStatus component renders as
`foundCount/4`. -/
def validationSummaryOf (found : String → Bool) : ValidationSummaryData :=
  { all_found := canonicalHeaderTypes.all found
    found_count := (canonicalHeaderTypes.filter (fun t => found t)).length
    total_count := canonicalHeaderTypes.length
    can_generate_insights := canonicalHeaderTypes.all found
    missing_headers := canonicalHeaderTypes.filter (fun t => !(found t)) }

/-- Counterexample to claim C5 as stated: `timestamp` is not one of the
canonical header types the code recognizes — the first type is `datetime`,
which `getHeaderTypeLabel` maps to `Date/Time` while `timestamp` falls
through unrecognized. -/
theorem headerTypes_timestamp_not_canonical :
    "timestamp" ∉ canonicalHeaderTypes
    ∧ "datetime" ∈ canonicalHeaderTypes
    ∧ getHeaderTypeLabel "timestamp" = "timestamp"
    ∧ getHeaderTypeLabel "datetime" = "Date/Time" := by decide

/-- Claim C5 amended: the fixed canonical header types are exactly datetime,
product_id, quantity and revenue, so total_count is always 4 and
missing_headers lists exactly the not-found types among these four. -/
theorem validationSummary_four_types (found : String → Bool) (t : String) :
    canonicalHeaderTypes = ["datetime", "product_id", "quantity", "revenue"]
    ∧ (validationSummaryOf found).total_count = 4
    ∧ (t ∈ (validationSummaryOf found).missing_headers
        ↔ (t ∈ canonicalHeaderTypes ∧ found t = false))
    ∧ (validationSummaryOf found).can_generate_insights
        = (validationSummaryOf found).all_found := by
  refine ⟨rfl, rfl, ?_, rfl⟩
  simp [validationSummaryOf, List.mem_filter]

/-! ### src/frontend/src/components/FileUpload.tsx -/

/-- An axios upload progress event: bytes loaded, and the total byte count
when known — `total = 0` models a falsy (absent or zero) total. -/
structure UploadProgressEvent where
  loaded : Nat
  total : Nat
deriving DecidableEq

/-- JS `Math.round` applied to the exact nonnegative ratio num/den (a half
rounds up), for den ≠ 0. -/
def jsRoundRatio (num den : Nat) : Nat := (2 * num + den) / (2 * den)

/-- The progress a freshly added upload starts with. -/
def uploadFileInitialProgress : Nat := 0

/-- The onUploadProgress handler inside uploadFile: when `progressEvent.total`
is truthy it sets the progress of the matching file to
`Math.round((progressEvent.loaded * 100) / progressEvent.total)`; otherwise
the update is skipped and the progress keeps its previous value. -/
def onUploadProgress (progress : Nat) (e : UploadProgressEvent) : Nat :=
  if e.total ≠ 0 then jsRoundRatio (e.loaded * 100) e.total else progress

/-- Counterexample to claim C6 as stated: an event with total = 0 does not
set the percentage to 0 — the update is skipped, so a previous value of 50
survives. -/
theorem uploadProgress_zero_total_keeps_previous :
    onUploadProgress 50 ⟨60, 0⟩ = 50 ∧ onUploadProgress 50 ⟨60, 0⟩ ≠ 0 := by
  decide

/-- Claim C6 amended: an event with nonzero total sets the percentage to
round(100 * loaded / total); a total of 0 is guarded — no division happens
and the percentage keeps its previous value, which starts at 0; and the
percentage stays in [0, 100] whenever loaded ≤ total, respectively whenever
the kept previous value was in range. -/
theorem uploadProgress_round_and_range (prev : Nat) (e : UploadProgressEvent) :
    (e.total ≠ 0 → onUploadProgress prev e = jsRoundRatio (e.loaded * 100) e.total)
    ∧ (e.total = 0 → onUploadProgress prev e = prev)
    ∧ uploadFileInitialProgress = 0
    ∧ (e.total ≠ 0 → e.loaded ≤ e.total → onUploadProgress prev e ≤ 100)
    ∧ (e.total = 0 → prev ≤ 100 → onUploadProgress prev e ≤ 100) := by
  refine ⟨fun ht => by simp [onUploadProgress, ht],
    fun ht => by simp [onUploadProgress, ht], rfl, fun ht hle => ?_,
    fun ht hp => by simpa [onUploadProgress, ht] using hp⟩
  have hpos : 0 < 2 * e.total := by omega
  have hlt : jsRoundRatio (e.loaded * 100) e.total < 101 := by
    rw [jsRoundRatio, Nat.div_lt_iff_lt_mul hpos]
    omega
  have heq : onUploadProgress prev e = jsRoundRatio (e.loaded * 100) e.total := by
    simp [onUploadProgress, ht]
  rw [heq]
  omega

/-- Witness for C6 amended at concrete events. -/
theorem uploadProgress_round_and_range_witness :
    ((3 : Nat) ≠ 0 → onUploadProgress 0 ⟨1, 3⟩ = jsRoundRatio (1 * 100) 3)
    ∧ ((3 : Nat) = 0 → onUploadProgress 0 ⟨1, 3⟩ = 0)
    ∧ uploadFileInitialProgress = 0
    ∧ ((3 : Nat) ≠ 0 → (1 : Nat) ≤ 3 → onUploadProgress 0 ⟨1, 3⟩ ≤ 100)
    ∧ ((3 : Nat) = 0 → (0 : Nat) ≤ 100 → onUploadProgress 0 ⟨1, 3⟩ ≤ 100) :=
  uploadProgress_round_and_range 0 ⟨1, 3⟩

/-- What handleFiles does per file of a batch, in input order: an invalid
file triggers the error callback with its accumulated errors and is skipped;
a valid file is uploaded. uploadFile itself catches request errors
internally, so neither branch escapes the loop. -/
inductive FileEvent where
  | errorReported (errors : List ValidationErrorMsg)
  | uploaded (file : JSFile)
deriving DecidableEq

/-- The per-file loop of `handleFiles(files)`. -/
def handleFiles (files : List JSFile) : List FileEvent :=
  files.map (fun file =>
    let validation := validateFile (some file)
    if validation.isValid then .uploaded file
    else .errorReported validation.errors)

/-- The files a batch actually uploads, in order. -/
def uploadedFiles (events : List FileEvent) : List JSFile :=
  events.filterMap (fun e =>
    match e with
    | .uploaded f => some f
    | .errorReported _ => none)

/-- Claim C8: every file of a batch is processed (a malformed file aborts
nothing and raises nothing out of the handler), each invalid file reports its
accumulated errors through the error callback, and exactly the valid files
are uploaded, in input order. -/
theorem handleFiles_batch_isolation (files : List JSFile) (f : JSFile) :
    (handleFiles files).length = files.length
    ∧ uploadedFiles (handleFiles files)
        = files.filter (fun g => (validateFile (some g)).isValid)
    ∧ (f ∈ files → (validateFile (some f)).isValid = false →
        FileEvent.errorReported (validateFile (some f)).errors ∈ handleFiles files) := by
  refine ⟨by simp [handleFiles], ?_, fun hf hbad => ?_⟩
  · induction files with
    | nil => rfl
    | cons a l ih =>
      by_cases ha : (validateFile (some a)).isValid <;>
        simp_all [handleFiles, uploadedFiles, List.filterMap_cons, List.filter_cons]
  · have := List.mem_map_of_mem
      (fun file =>
        let validation := validateFile (some file)
        if validation.isValid then FileEvent.uploaded file
        else .errorReported validation.errors) hf
    simpa [handleFiles, hbad] using this

end Vrose
